import Mathlib

/-!
Verification development for the `config-lib` typed configuration registry.

Shallow embedding of the C++ sources:
* `src/include/config/validator/pipeline.h` — `ValidatorPipeline<T>`
* `src/include/config/validator/builder.h`  — `ValidatorBuilder<T>` and the
  `Validators::` shortcuts
* `src/include/config/registry.h`           — `CConfigRegistry` (the mature copy,
  with nested-path document load/save)
* `src/lib/variable.h`                      — the older `CConfigVariable` copy

The mature `CConfigVariable` (`src/include/config/variable.h`, the file the
mature registry includes) is not present in the sources; where a claim depends
on it, the corresponding definition is modelled from the specification and its
doc comment says so explicitly.

C++ `int` values are modelled as `Int`; `std::stoi`'s range failure keeps the
explicit 32-bit bounds because a parse failure is observable behaviour.
-/

/-! ## Strings and characters -/

/-- Model of `std::isspace` in the default locale: space, \t, \n, \v, \f, \r. -/
def isCppSpace (c : Char) : Bool :=
  c == ' ' || c == '\t' || c == '\n' || c == '\x0b' || c == '\x0c' || c == '\r'

/-- Digit run value, base 10 (the digit-accumulation loop inside `std::stoi`). -/
def digitsVal (l : List Char) : Nat :=
  l.foldl (fun acc c => acc * 10 + (c.toNat - '0'.toNat)) 0

/-- Model of `std::stoi` (base 10): skip leading whitespace, optional sign, a non-empty
digit run parsed as a decimal number; `none` models the `invalid_argument`
(no digits) and `out_of_range` (outside 32-bit `int`) exceptions. Trailing
non-digit characters are ignored, as in the C++ function. -/
def stoi (s : String) : Option Int :=
  let l := s.data.dropWhile isCppSpace
  let signAndRest : Int × List Char :=
    match l with
    | '-' :: r => (-1, r)
    | '+' :: r => (1, r)
    | _ => (1, l)
  let ds := signAndRest.2.takeWhile Char.isDigit
  if ds.isEmpty then none
  else
    let v : Int := signAndRest.1 * (digitsVal ds : Int)
    if v < -2147483648 ∨ 2147483647 < v then none else some v

/-! ## `ValidatorPipeline<T>` (pipeline.h) -/

/-- Embedding of `ValidatorPipeline<T>`: ordered string validators, an optional parser
(`std::function` is empty until `SetParser` is called), ordered typed
validators. -/
structure ValidatorPipeline (α : Type) where
  stringValidators : List (String → Except String String) := []
  parser : Option (String → Except String α) := none
  typedValidators : List (α → Except String α) := []

namespace ValidatorPipeline

def AddStringValidator (p : ValidatorPipeline α)
    (v : String → Except String String) : ValidatorPipeline α :=
  { p with stringValidators := p.stringValidators ++ [v] }

def SetParser (p : ValidatorPipeline α)
    (f : String → Except String α) : ValidatorPipeline α :=
  { p with parser := some f }

def AddTypedValidator (p : ValidatorPipeline α)
    (v : α → Except String α) : ValidatorPipeline α :=
  { p with typedValidators := p.typedValidators ++ [v] }

/-- The first loop of `operator()`: thread the string through the validators,
returning the first error. -/
def chainString : List (String → Except String String) → String →
    Except String String
  | [], s => .ok s
  | v :: rest, s =>
    match v s with
    | .error e => .error e
    | .ok s2 => chainString rest s2

/-- The last loop of `operator()`: thread the parsed value through the typed
validators, returning the first error. -/
def chainTyped : List (α → Except String α) → α → Except String α
  | [], t => .ok t
  | v :: rest, t =>
    match v t with
    | .error e => .error e
    | .ok t2 => chainTyped rest t2

/-- Embedding of `ValidatorPipeline<T>::operator()`: string validators in order, then the
parser (failing with "No parser configured" when the `std::function` is
empty), then typed validators in order. -/
def run (p : ValidatorPipeline α) (s : String) : Except String α :=
  match chainString p.stringValidators s with
  | .error e => .error e
  | .ok s2 =>
    match p.parser with
    | none => .error "No parser configured"
    | some parse =>
      match parse s2 with
      | .error e => .error e
      | .ok t => chainTyped p.typedValidators t

end ValidatorPipeline

/-- The spec's four-step pipeline algorithm (§4.1), written with the standard
monadic combinators: fold the string validators left-to-right in the `Except`
monad, fail when no parser is configured, bind the parser, fold the typed
validators left-to-right. Used to state that the loop-based `run` follows
exactly this algorithm. -/
def pipelineSpecAlg (p : ValidatorPipeline α) (s : String) : Except String α :=
  (p.stringValidators.foldlM
      (fun (acc : String) (v : String → Except String String) => v acc) s).bind
    fun s2 =>
      match p.parser with
      | none => .error "No parser configured"
      | some parse =>
        (parse s2).bind fun t =>
          p.typedValidators.foldlM
            (fun (acc : α) (v : α → Except String α) => v acc) t

/-! ## `ValidatorBuilder<T>` (builder.h)

The builder's only state is its pipeline, so it is embedded as the pipeline
itself; each fluent method appends its stage. -/

namespace ValidatorBuilder

/-- The string validator added by `ValidatorBuilder::Trim`: erase trailing,
then leading, characters satisfying `std::isspace`; never fails. -/
def trimFn (value : String) : Except String String :=
  let l1 := ((value.data.reverse.dropWhile isCppSpace).reverse)
  .ok (String.mk (l1.dropWhile isCppSpace))

/-- The string validator added by `ValidatorBuilder::NotEmpty`. -/
def notEmptyFn (value : String) : Except String String :=
  if value.isEmpty then .error "Value should not be empty" else .ok value

/-- The parser set by `ValidatorBuilder<int>::Integer` (the `std::stoi`
specialization): empty-string check, then `std::stoi` with both exceptions
mapped to "Failed to parse integer". -/
def integerFn (value : String) : Except String Int :=
  if value.isEmpty then .error "String should not be empty"
  else
    match stoi value with
    | some n => .ok n
    | none => .error "Failed to parse integer"

/-- The parser set by `ValidatorBuilder<bool>::Boolean`. -/
def booleanFn (value : String) : Except String Bool :=
  if value.isEmpty then .error "String should not be empty"
  else if value == "1" || value == "true" then .ok true
  else if value == "0" || value == "false" then .ok false
  else .error "Unsupported bool value (1/true/0/false)"

/-- The typed validator added by `ValidatorBuilder::Min`. -/
def minFn (minValue : Int) (value : Int) : Except String Int :=
  if value < minValue then .error ("Value should be >=" ++ toString minValue)
  else .ok value

/-- The typed validator added by `ValidatorBuilder::Max`. -/
def maxFn (maxValue : Int) (value : Int) : Except String Int :=
  if maxValue < value then .error ("Value should be <=" ++ toString maxValue)
  else .ok value

/-- The typed validator added by `ValidatorBuilder::Range`. -/
def rangeFn (minValue maxValue : Int) (value : Int) : Except String Int :=
  if value < minValue ∨ maxValue < value then
    .error ("Value should be >=" ++ toString minValue ++
      " and <=" ++ toString maxValue)
  else .ok value

def Trim (b : ValidatorPipeline α) : ValidatorPipeline α :=
  b.AddStringValidator trimFn

def NotEmpty (b : ValidatorPipeline α) : ValidatorPipeline α :=
  b.AddStringValidator notEmptyFn

def Integer (b : ValidatorPipeline Int) : ValidatorPipeline Int :=
  b.SetParser integerFn

def Boolean (b : ValidatorPipeline Bool) : ValidatorPipeline Bool :=
  b.SetParser booleanFn

def Min (b : ValidatorPipeline Int) (minValue : Int) : ValidatorPipeline Int :=
  b.AddTypedValidator (minFn minValue)

def Max (b : ValidatorPipeline Int) (maxValue : Int) : ValidatorPipeline Int :=
  b.AddTypedValidator (maxFn maxValue)

def Range (b : ValidatorPipeline Int) (minValue maxValue : Int) :
    ValidatorPipeline Int :=
  b.AddTypedValidator (rangeFn minValue maxValue)

end ValidatorBuilder

namespace Validators

/-- Shortcut `Validators::IntRanged`: `ValidatorBuilder<int>().Trim().NotEmpty().Integer().Range(Min, Max)`. -/
def IntRanged (mn mx : Int) : ValidatorPipeline Int :=
  ValidatorBuilder.Range
    (ValidatorBuilder.Integer (ValidatorBuilder.NotEmpty (ValidatorBuilder.Trim {})))
    mn mx

/-- Shortcut `Validators::StringNonEmpty`: `ValidatorBuilder<std::string>().Trim().NotEmpty()`
(no parser is ever set). -/
def StringNonEmpty : ValidatorPipeline String :=
  ValidatorBuilder.NotEmpty (ValidatorBuilder.Trim {})

/-- Shortcut `Validators::Boolean`: `ValidatorBuilder<bool>().Trim().NotEmpty().Boolean()`. -/
def Boolean : ValidatorPipeline Bool :=
  ValidatorBuilder.Boolean (ValidatorBuilder.NotEmpty (ValidatorBuilder.Trim {}))

end Validators

/-! ## Variables

The registry stores variables behind the type-erased `IConfigVariableBase`
interface; concrete variables are `CConfigVariable<T>` for `T` one of the
registered static types. The type tags below cover the erased types the
claims quantify over (`float` is omitted: floating-point rendering and
parsing are outside the embedding). -/

inductive CType where
  | cInt
  | cBool
  | cString
deriving DecidableEq

/-- Interpretation of a static type tag as the Lean type of stored values. -/
abbrev CType.interp : CType → Type
  | .cInt => Int
  | .cBool => Bool
  | .cString => String

/-- Modelled from the spec: the mature `CConfigVariable<T>`
(`src/include/config/variable.h`, included by the mature registry) is missing
from the sources; only the older copy `src/lib/variable.h` (which has no
read-only flag and whose `TrySet` does not store the validated value) and the
mature registry calling `ReadOnly()`, `TrySet`, `TrySetJson`, `ValueAsJson`
are present. Fields follow §3/§4.3 of the spec: name, current value, default
value, optional description, read-only flag, optional string pipeline
(`m_Validator`), and the typed check applied to already-typed document values
during load (`check`, the typed-stage validation of §4.4's
"same typed-set semantics as TrySet, operating on the already-typed document
value"). -/
structure CConfigVariable (α : Type) where
  name : String
  value : α
  defaultValue : α
  description : Option String := none
  readOnly : Bool := false
  validator : Option (String → Except String α) := none
  check : α → Except String α := fun a => .ok a

/-- Modelled from the spec (§4.3), the implementation being in the missing
mature `variable.h`: if read-only, fail immediately without invoking the
pipeline; with no pipeline, fail; otherwise run the pipeline, store its
output on success, and return its error verbatim on failure. State passing:
success carries the updated variable. -/
def CConfigVariable.TrySet (v : CConfigVariable α) (raw : String) :
    Except String (CConfigVariable α) :=
  if v.readOnly then .error "Variable is read-only"
  else
    match v.validator with
    | none => .error "No validator configured"
    | some f =>
      match f raw with
      | .ok x => .ok { v with value := x }
      | .error e => .error e

/-- Embedding of `CConfigVariable::Reset` (`src/lib/variable.h` line 81):
unconditionally `m_Value = m_DefaultValue`; there is no read-only guard. -/
def CConfigVariable.Reset (v : CConfigVariable α) : CConfigVariable α :=
  { v with value := v.defaultValue }

/-- A type-erased variable handle: a static type tag together with the
concrete `CConfigVariable` at that type (the model of an
`IConfigVariableBase` pointer whose dynamic type is `CConfigVariable<T>`). -/
structure EVar where
  ty : CType
  var : CConfigVariable ty.interp

/-- Embedding of `CConfigVariable::ValueAsString` (`src/lib/variable.h`
lines 46-54): strings render as-is, booleans as "true"/"false", integers via
`std::to_string` (decimal). -/
def EVar.ValueAsString : EVar → String
  | ⟨.cInt, v⟩ => toString v.value
  | ⟨.cBool, v⟩ => if v.value then "true" else "false"
  | ⟨.cString, v⟩ => v.value

/-- Embedding of `CConfigVariable::DefaultValueAsString`
(`src/lib/variable.h` lines 56-64), same rendering on the default value. -/
def EVar.DefaultValueAsString : EVar → String
  | ⟨.cInt, v⟩ => toString v.defaultValue
  | ⟨.cBool, v⟩ => if v.defaultValue then "true" else "false"
  | ⟨.cString, v⟩ => v.defaultValue

/-- Type-erased `Reset` (vtable dispatch to `CConfigVariable::Reset`). -/
def EVar.Reset (e : EVar) : EVar :=
  ⟨e.ty, e.var.Reset⟩

/-! ## Structured documents (nlohmann::json fragment)

The document values the registry reads and writes: booleans, integers,
strings, and nested objects. Objects are association lists; `contains`
returns false on non-objects, as in nlohmann. -/

inductive Json where
  | jbool (b : Bool)
  | jint (n : Int)
  | jstr (s : String)
  | jobj (entries : List (String × Json))

def Json.isObj : Json → Bool
  | .jobj _ => true
  | _ => false

def assocGet : List (String × Json) → String → Option Json
  | [], _ => none
  | (k, v) :: rest, key => if k = key then some v else assocGet rest key

def assocSet : List (String × Json) → String → Json → List (String × Json)
  | [], key, v => [(key, v)]
  | (k, w) :: rest, key, v =>
    if k = key then (k, v) :: rest else (k, w) :: assocSet rest key v

/-- Key lookup: `contains` + `operator[]` on a json value; `none` when the
value is not an object (nlohmann's `contains` is false there) or the key is
absent. -/
def Json.objGet : Json → String → Option Json
  | .jobj l, key => assocGet l key
  | _, _ => none

/-- Key update `j[key] = v`; the registry only ever applies it to objects. -/
def Json.objInsert : Json → String → Json → Json
  | .jobj l, key, v => .jobj (assocSet l key v)
  | j, _, _ => j

/-- Embedding of `CConfigVariable::ValueAsJson` dispatched through the type
tag: the value in its native typed document form (the mature registry calls
it when saving; nlohmann stores `int` as a JSON integer, `bool` as a JSON
boolean, `std::string` as a JSON string). -/
def EVar.ValueAsJson : EVar → Json
  | ⟨.cInt, v⟩ => .jint v.value
  | ⟨.cBool, v⟩ => .jbool v.value
  | ⟨.cString, v⟩ => .jstr v.value

/-- Reading a typed document value back at a static type tag; `none` on a
type mismatch. -/
def Json.decodeAs : (t : CType) → Json → Option t.interp
  | .cInt, .jint n => some n
  | .cBool, .jbool b => some b
  | .cString, .jstr s => some s
  | _, _ => none

/-- Modelled from the spec: `TrySetJson` lives in the missing mature
`variable.h`; the mature registry calls `var->TrySetJson(*value, true)` when
loading. Per §4.4, load "attempts to assign that value via the same typed-set
semantics as TrySet, operating on the already-typed document value rather
than re-parsing a flat string": decode the document value at the variable's
static type (a mismatch fails), run the variable's typed check, and store the
checked value on success. The boolean argument at the call site is taken as a
force flag bypassing the read-only guard, since §4.4 describes validation as
the only per-variable load failure. -/
def EVar.TrySetJson (e : EVar) (j : Json) : Except String EVar :=
  match Json.decodeAs e.ty j with
  | none => .error "Type mismatch"
  | some x =>
    match e.var.check x with
    | .error m => .error m
    | .ok y => .ok ⟨e.ty, { e.var with value := y }⟩

/-! ## Nested dotted paths (registry.h lines 26-75)

The C++ helpers split a dotted name with `find('.')`/`rfind('.')`; that
splitting is exactly `String.splitOn "."`, so the helpers are embedded on the
segment list. -/

/-- The segment-splitting loop (`start`/`end = find('.', start)`): emit the
accumulated segment at each dot, and the remainder as the final segment. The
accumulator holds the current segment's characters in reverse. -/
def splitPathAux : List Char → List Char → List String
  | [], acc => [String.mk acc.reverse]
  | c :: rest, acc =>
    if c = '.' then String.mk acc.reverse :: splitPathAux rest []
    else splitPathAux rest (c :: acc)

/-- Splitting a dotted variable name into its path segments, exactly as the
`find`/`rfind` loops of registry.h do (a name with no dot is one segment;
empty segments are kept). -/
def splitPath (path : String) : List String :=
  splitPathAux path.data []

/-- One step of `GetNestedJson`: descend into the child at `k`, replacing it
with a fresh empty object when it is absent or not an object
(registry.h lines 33-35). -/
def childObject (root : Json) (k : String) : Json :=
  match root.objGet k with
  | some c => if c.isObj then c else .jobj []
  | none => .jobj []

/-- Embedding of `CConfigRegistry::GetNestedJson` (registry.h lines 26-42)
as a functional update. The C++ loop descends one level per DOT-TERMINATED
part of its path argument, creating an empty object wherever the child is
absent or not an object, and returns its position when the dots run out —
the segment after the last dot is never descended (on a dot-free path the
loop body never runs and the function returns the root itself). The
embedding therefore takes exactly the list of parts the loop walks, and the
write to perform at the reached position. -/
def GetNestedJson : Json → List String → (Json → Json) → Json
  | root, [], write => write root
  | root, p :: rest, write =>
    root.objInsert p (GetNestedJson (childObject root p) rest write)

/-- Embedding of `CConfigRegistry::SetNestedValue` (registry.h lines 44-54):
with no dot in the path, `root[path] = value`; otherwise the parent path is
everything before the last dot and the key everything after it, and the
value is written at `GetNestedJson(root, parentPath)[key]`. Since
`GetNestedJson` walks only the dot-terminated parts of the parent path —
its own last segment included is never descended — the parts walked are the
path's segments except the last two (`dropLast.dropLast`): a two-segment
name `server.port` is written flat at `root["port"]`, and a three-segment
name `a.b.c` at `root["a"]["c"]`, dropping the second-to-last level. -/
def SetNestedValue (root : Json) (path : String) (v : Json) : Json :=
  let segs := splitPath path
  match segs with
  | [key] => root.objInsert key v
  | _ =>
    GetNestedJson root segs.dropLast.dropLast
      (fun parent => parent.objInsert (segs.getLastD "") v)

/-- Embedding of `GetNestedValue` on the segment list: descend with
`contains` + `operator[]` (false/absent on non-objects), and read the final
key. -/
def getSegs : Json → List String → Option Json
  | _, [] => none
  | j, [k] => j.objGet k
  | j, k :: k2 :: rest =>
    match j.objGet k with
    | some c => getSegs c (k2 :: rest)
    | none => none

/-- Embedding of `CConfigRegistry::GetNestedValue` (registry.h lines 56-75). -/
def GetNestedValue (root : Json) (path : String) : Option Json :=
  getSegs root (splitPath path)

/-! ## The registry (registry.h)

`m_Variables` is an `unordered_map<string, unique_ptr<IConfigVariableBase>>`;
it is embedded as the list of its entries in iteration order, with lookup by
name. File transport (existence check, fstream, JSON text round-trip) belongs
to the external JSON/filesystem collaborators (§1, §6), so `SaveToFile` is
embedded as producing the document it writes and `LoadFromFile` as consuming
the document it parsed. -/

abbrev CConfigRegistry := List (String × EVar)

namespace CConfigRegistry

/-- Lookup `m_Variables.find(name)`. -/
def findVar : CConfigRegistry → String → Option EVar
  | [], _ => none
  | (k, v) :: rest, name => if k = name then some v else findVar rest name

/-- Embedding of `CConfigRegistry::Register` (registry.h lines 93-103):
insert under `var.Name()` iff the name is not yet present; returns the new
state and the boolean result. -/
def Register (reg : CConfigRegistry) (ev : EVar) : CConfigRegistry × Bool :=
  if (findVar reg ev.var.name).isSome then (reg, false)
  else (reg ++ [(ev.var.name, ev)], true)

/-- Value cast along a proof that two static type tags are equal (the model
of a successful `dynamic_cast<CConfigVariable<T>*>`). -/
def castValue {a b : CType} (h : a = b) (x : a.interp) : b.interp :=
  h ▸ x

/-- Embedding of `CConfigRegistry::Get<T>` (registry.h lines 105-117): find
the name, then `dynamic_cast` to `CConfigVariable<T>` — which succeeds iff
the stored dynamic type is exactly `T` — and return the current value. -/
def Get (t : CType) (reg : CConfigRegistry) (name : String) : Option t.interp :=
  match findVar reg name with
  | none => none
  | some ev => if h : ev.ty = t then some (castValue h ev.var.value) else none

/-- Embedding of `CConfigRegistry::Type<T>` (registry.h lines 119-131); the
C++ member is named `Type`, which is reserved in Lean. Its body is
line-for-line that of `Get<T>`. -/
def TypeLookup (t : CType) (reg : CConfigRegistry) (name : String) :
    Option t.interp :=
  match findVar reg name with
  | none => none
  | some ev => if h : ev.ty = t then some (castValue h ev.var.value) else none

/-- Replacing the variable stored under a name (the in-place mutation of the
pointed-to variable through the map iterator). -/
def replaceVar : CConfigRegistry → String → EVar → CConfigRegistry
  | [], _, _ => []
  | (k, v) :: rest, name, ev =>
    if k = name then (k, ev) :: rest else (k, v) :: replaceVar rest name ev

/-- Embedding of `CConfigRegistry::Set` (registry.h lines 133-140): look the
name up, failing with the not-found message, and delegate to the variable's
`TrySet`. -/
def Set (reg : CConfigRegistry) (name value : String) :
    CConfigRegistry × Except String Unit :=
  match findVar reg name with
  | none => (reg, .error ("Variable '" ++ name ++ "' not found"))
  | some ev =>
    match ev.var.TrySet value with
    | .ok v2 => (replaceVar reg name ⟨ev.ty, v2⟩, .ok ())
    | .error e => (reg, .error e)

/-- Embedding of the document built by `CConfigRegistry::SaveToFile`
(registry.h lines 209-230): starting from an empty object, set each
variable's typed value at its dotted name, in iteration order. -/
def SaveDoc (reg : CConfigRegistry) : Json :=
  reg.foldl (fun root nv => SetNestedValue root nv.1 nv.2.ValueAsJson)
    (Json.jobj [])

/-- One iteration of the `LoadFromFile` loop (registry.h lines 256-265) for
the entry of one registered variable: skip when the dotted name is absent
from the document, otherwise `TrySetJson`, recording `name + ": " + error`
on failure. -/
def loadEntry (root : Json) (nv : String × EVar) :
    (String × EVar) × Option String :=
  match GetNestedValue root nv.1 with
  | none => (nv, none)
  | some j =>
    match nv.2.TrySetJson j with
    | .ok ev2 => ((nv.1, ev2), none)
    | .error e => (nv, some (nv.1 ++ ": " ++ e))

/-- The aggregated error message built at registry.h lines 267-271. -/
def aggregateMsg (errs : List String) : String :=
  errs.foldl (fun acc e => acc ++ " - " ++ e ++ "\n")
    "Some variables failed to load:\n"

/-- Embedding of `CConfigRegistry::LoadFromFile` (registry.h lines 238-280)
applied to an already-parsed document: run the per-variable loop over every
registered variable, then return success when no per-variable error was
recorded and the single aggregated error otherwise. -/
def LoadDoc (root : Json) (reg : CConfigRegistry) :
    CConfigRegistry × Except String Unit :=
  let results := reg.map (loadEntry root)
  (results.map Prod.fst,
    if (results.filterMap Prod.snd).isEmpty then .ok ()
    else .error (aggregateMsg (results.filterMap Prod.snd)))

end CConfigRegistry

/-! ## Auxiliary definitions used in claim statements -/

/-- Boolean test: the needle occurs at the front of the haystack. -/
def listHasPre : List Char → List Char → Bool
  | [], _ => true
  | _ :: _, [] => false
  | a :: as, b :: bs => a == b && listHasPre as bs

/-- Boolean test: the needle occurs somewhere in the haystack. -/
def listHasSub (needle : List Char) : List Char → Bool
  | [] => needle.isEmpty
  | b :: bs => listHasPre needle (b :: bs) || listHasSub needle bs

/-- String containment, used to state that an error message names a bound or
a failing variable. -/
def strContains (hay needle : String) : Bool :=
  listHasSub needle.data hay.data

/-! ## Concrete fixtures

Variables as registered by `src/main.cpp` (plus a dotted-name variable to
exercise nesting), used by the witness and counterexample theorems. -/

/-- The pipeline `Validators::IntRanged(0, 500)` of `src/main.cpp`. -/
def intRangedPipe : ValidatorPipeline Int :=
  Validators.IntRanged 0 500

/-- The variable of `CONFIG_INT("integer", 512, Validators::IntRanged(0, 500))`
in `src/main.cpp`: its default (and hence initial) value 512 violates its own
range validator. The typed check is the pipeline's typed-validator chain. -/
def varInteger : EVar :=
  ⟨.cInt,
    { name := "integer", value := 512, defaultValue := 512,
      validator := some intRangedPipe.run,
      check := ValidatorPipeline.chainTyped intRangedPipe.typedValidators }⟩

/-- The same registration with current value 42, inside the valid range. -/
def varInteger42 : EVar :=
  ⟨.cInt,
    { name := "integer", value := 42, defaultValue := 512,
      validator := some intRangedPipe.run,
      check := ValidatorPipeline.chainTyped intRangedPipe.typedValidators }⟩

/-- The variable of `CONFIG_STRING("veryImportantString", "fas", Validators::StringNonEmpty())`. -/
def varString : EVar :=
  ⟨.cString,
    { name := "veryImportantString", value := "fas", defaultValue := "fas",
      validator := some Validators.StringNonEmpty.run }⟩

/-- A boolean variable with the `Validators::Boolean()` pipeline. -/
def varFlag : EVar :=
  ⟨.cBool,
    { name := "flag", value := true, defaultValue := false,
      validator := some Validators.Boolean.run }⟩

/-- A read-only variant of the boolean variable. -/
def varFlagRO : EVar :=
  ⟨.cBool,
    { name := "flag", value := true, defaultValue := false,
      readOnly := true,
      validator := some Validators.Boolean.run }⟩

/-- An integer variable under a dotted name, nesting one level deep. -/
def varPort : EVar :=
  ⟨.cInt,
    { name := "server.port", value := 8080, defaultValue := 8080,
      validator := some (Validators.IntRanged 0 65535).run,
      check := ValidatorPipeline.chainTyped
        (Validators.IntRanged 0 65535).typedValidators }⟩

/-- The three-variable registry of the spec's `LoadFromFile` example. -/
def regMain : CConfigRegistry :=
  [("veryImportantString", varString), ("integer", varInteger42),
   ("flag", varFlag)]

/-- An integer variable under the dot-free name "port", used to show the
cross-talk between a flat name and a dotted name that saves onto it. -/
def varPortFlat : EVar :=
  ⟨.cInt,
    { name := "port", value := 1, defaultValue := 1,
      validator := some (Validators.IntRanged 0 65535).run }⟩

/-- A registry holding both "port" and "server.port": their dotted paths are
unrelated, yet `SetNestedValue` writes "server.port" flat at the key
"port". -/
def regCross : CConfigRegistry :=
  [("port", varPortFlat), ("server.port", varPort)]

/-- The registry right after the registrations of `src/main.cpp`: the
variable "integer" holds 512, outside its own range 0..500. -/
def regBad : CConfigRegistry :=
  [("integer", varInteger)]

/-- A document for the spec's `LoadFromFile` example: of the three registered
variables, "integer" carries the out-of-range value 999 and the other two
carry acceptable values. -/
def docMixed : Json :=
  .jobj [("veryImportantString", .jstr "hello"), ("integer", .jint 999),
    ("flag", .jbool true)]

/-! ## Pipeline lemmas -/

theorem chainString_eq_foldlM (vs : List (String → Except String String))
    (s : String) :
    ValidatorPipeline.chainString vs s =
      vs.foldlM (fun (acc : String) (v : String → Except String String) => v acc)
        s := by
  induction vs generalizing s with
  | nil => rfl
  | cons v rest ih =>
    simp only [ValidatorPipeline.chainString, List.foldlM_cons]
    cases hv : v s with
    | error e => simp [Bind.bind, Except.bind]
    | ok s2 => simp [Bind.bind, Except.bind, ih]

theorem chainTyped_eq_foldlM {α : Type} (vs : List (α → Except String α))
    (t : α) :
    ValidatorPipeline.chainTyped vs t =
      vs.foldlM (fun (acc : α) (v : α → Except String α) => v acc) t := by
  induction vs generalizing t with
  | nil => rfl
  | cons v rest ih =>
    simp only [ValidatorPipeline.chainTyped, List.foldlM_cons]
    cases hv : v t with
    | error e => simp [Bind.bind, Except.bind]
    | ok t2 => simp [Bind.bind, Except.bind, ih]

/-- C2: for every pipeline and every input string, `operator()` runs the
registered string validators in registration order threading the transformed
string through and aborting with the first error; then fails with the
"no parser configured" error when no parser was set; then runs the parser,
aborting on its failure; then runs the typed validators in registration order
on the parsed value, aborting with the first error, and returns the final
transformed value — i.e. the loop implementation equals the spec's four-step
short-circuiting algorithm `pipelineSpecAlg`. -/
theorem run_as_bind {α : Type} (p : ValidatorPipeline α) (s : String) :
    p.run s =
      Except.bind (ValidatorPipeline.chainString p.stringValidators s)
        (fun s2 =>
          match p.parser with
          | none => .error "No parser configured"
          | some parse =>
            Except.bind (parse s2)
              (ValidatorPipeline.chainTyped p.typedValidators)) := by
  unfold ValidatorPipeline.run
  cases ValidatorPipeline.chainString p.stringValidators s with
  | error e => rfl
  | ok s2 =>
    cases p.parser with
    | none => rfl
    | some parse =>
      show (match parse s2 with
        | Except.error e => Except.error e
        | Except.ok t => ValidatorPipeline.chainTyped p.typedValidators t) =
        Except.bind (parse s2) (ValidatorPipeline.chainTyped p.typedValidators)
      cases parse s2 with
      | error e => rfl
      | ok t => rfl

theorem pipeline_run_eq_spec_alg {α : Type} (p : ValidatorPipeline α)
    (s : String) :
    p.run s = pipelineSpecAlg p s := by
  rw [run_as_bind]
  unfold pipelineSpecAlg
  rw [← chainString_eq_foldlM]
  simp only [← chainTyped_eq_foldlM]

/-- C7: for the pipeline Trim→NotEmpty→Integer→Range(0,500): input " 512 "
fails with the range message, which names the violated maximum bound 500;
input " 42 " succeeds with the typed value 42; input "" fails with the
empty-string message of the NotEmpty stage for every configured parser, so
before any parser is invoked. -/
theorem intRanged_pipeline_examples :
    intRangedPipe.run " 512 " = .error "Value should be >=0 and <=500" ∧
    strContains "Value should be >=0 and <=500" "500" = true ∧
    intRangedPipe.run " 42 " = .ok 42 ∧
    ∀ q : Option (String → Except String Int),
      ValidatorPipeline.run { intRangedPipe with parser := q } "" =
        .error "Value should not be empty" := by
  exact ⟨rfl, rfl, rfl, fun q => rfl⟩

/-- C9: for every type-erased variable, read-only or not, `Reset` sets the
stored value to the default value, and afterwards `ValueAsString` renders
exactly what `DefaultValueAsString` rendered. -/
theorem reset_restores_default (e : EVar) :
    (e.Reset).var.value = e.var.defaultValue ∧
    (e.Reset).ValueAsString = e.DefaultValueAsString := by
  obtain ⟨ty, v⟩ := e
  cases ty <;> exact ⟨rfl, rfl⟩

/-- C10: `CConfigRegistry::Get<T>` and `CConfigRegistry::Type<T>` (embedded
as `TypeLookup`) return exactly the same optional current value on every
registry state, name and type. -/
theorem get_type_extensionally_equal (t : CType) (reg : CConfigRegistry)
    (name : String) :
    CConfigRegistry.Get t reg name = CConfigRegistry.TypeLookup t reg name :=
  rfl

/-- C8: the boolean parse step maps exactly "1" and "true" to true, exactly
"0" and "false" to false, and every other non-empty string to the
unsupported-value error. -/
theorem boolean_parse_cases (s : String) :
    (ValidatorBuilder.booleanFn s = .ok true ↔ s = "1" ∨ s = "true") ∧
    (ValidatorBuilder.booleanFn s = .ok false ↔ s = "0" ∨ s = "false") ∧
    (s ≠ "" → s ≠ "1" → s ≠ "true" → s ≠ "0" → s ≠ "false" →
      ValidatorBuilder.booleanFn s =
        .error "Unsupported bool value (1/true/0/false)") := by
  refine ⟨⟨?_, ?_⟩, ⟨?_, ?_⟩, ?_⟩
  · intro h
    unfold ValidatorBuilder.booleanFn at h
    split_ifs at h with h0 h1 h2 <;> simp_all
  · rintro (rfl | rfl) <;> rfl
  · intro h
    unfold ValidatorBuilder.booleanFn at h
    split_ifs at h with h0 h1 h2 <;> simp_all
  · rintro (rfl | rfl) <;> rfl
  · intro h0 h1 h2 h3 h4
    unfold ValidatorBuilder.booleanFn
    rw [if_neg (by simp [String.isEmpty_iff, h0]),
      if_neg (by simp [h1, h2]), if_neg (by simp [h3, h4])]

/-- Witness for C8 at the spec's example inputs. -/
theorem boolean_parse_cases_witness :
    ValidatorBuilder.booleanFn "yes" =
      .error "Unsupported bool value (1/true/0/false)" ∧
    ValidatorBuilder.booleanFn "true" = .ok true ∧
    ValidatorBuilder.booleanFn "0" = .ok false := by
  refine ⟨(boolean_parse_cases "yes").2.2 (by decide) (by decide) (by decide)
    (by decide) (by decide), ?_, ?_⟩
  · exact (boolean_parse_cases "true").1.mpr (Or.inr rfl)
  · exact (boolean_parse_cases "0").2.1.mpr (Or.inl rfl)

/-- C1: for a variable that has a pipeline and is not read-only, `TrySet`
returns success with the stored value replaced by the pipeline's output when
the pipeline succeeds, and returns the pipeline's error verbatim leaving the
stored value unchanged when it fails; correspondingly `CConfigRegistry::Set`
replaces the stored variable on success and leaves the registry state
untouched on failure. -/
theorem trySet_pipeline_result (reg : CConfigRegistry) (name raw : String)
    (e : EVar) (f : String → Except String e.ty.interp)
    (hfind : CConfigRegistry.findVar reg name = some e)
    (hro : e.var.readOnly = false) (hv : e.var.validator = some f) :
    (∀ x, f raw = .ok x →
      e.var.TrySet raw = .ok { e.var with value := x } ∧
      CConfigRegistry.Set reg name raw =
        (CConfigRegistry.replaceVar reg name ⟨e.ty, { e.var with value := x }⟩,
          .ok ())) ∧
    (∀ err, f raw = .error err →
      e.var.TrySet raw = .error err ∧
      CConfigRegistry.Set reg name raw = (reg, .error err)) := by
  constructor
  · intro x hx
    have h1 : e.var.TrySet raw = .ok { e.var with value := x } := by
      simp [CConfigVariable.TrySet, hro, hv, hx]
    exact ⟨h1, by simp [CConfigRegistry.Set, hfind, h1]⟩
  · intro err herr
    have h1 : e.var.TrySet raw = .error err := by
      simp [CConfigVariable.TrySet, hro, hv, herr]
    exact ⟨h1, by simp [CConfigRegistry.Set, hfind, h1]⟩

/-- Witness for C1 on the `src/main.cpp` "integer" variable inside the
three-variable registry: " 42 " is stored, " 512 " is rejected with the
range error and the registry is unchanged. -/
theorem trySet_pipeline_result_witness :
    varInteger42.var.TrySet " 42 " =
      .ok { varInteger42.var with value := (42 : Int) } ∧
    CConfigRegistry.Set regMain "integer" " 512 " =
      (regMain, .error "Value should be >=0 and <=500") := by
  have h42 := trySet_pipeline_result regMain "integer" " 42 " varInteger42
    intRangedPipe.run rfl rfl rfl
  have h512 := trySet_pipeline_result regMain "integer" " 512 " varInteger42
    intRangedPipe.run rfl rfl rfl
  exact ⟨(h42.1 (42 : Int) rfl).1,
    (h512.2 "Value should be >=0 and <=500" rfl).2⟩

theorem findVar_append (l1 l2 : CConfigRegistry) (n : String) :
    CConfigRegistry.findVar (l1 ++ l2) n =
      match CConfigRegistry.findVar l1 n with
      | some v => some v
      | none => CConfigRegistry.findVar l2 n := by
  induction l1 with
  | nil => rfl
  | cons kv rest ih =>
    obtain ⟨k, v⟩ := kv
    simp only [List.cons_append, CConfigRegistry.findVar]
    by_cases h : k = n
    · simp [h]
    · simp [h, ih]

/-- C4: `Register` returns true and inserts iff the name is not yet
registered; on a collision it returns false and leaves the state unchanged
(so the already-registered variable keeps its value); and a registration
never makes a later registration under a different name collide, so
registering distinct names A then B succeeds for both whenever it would have
from the initial state. -/
theorem register_unique_names (reg : CConfigRegistry) (ev : EVar) :
    ((CConfigRegistry.Register reg ev).2 = true ↔
      CConfigRegistry.findVar reg ev.var.name = none) ∧
    ((CConfigRegistry.Register reg ev).2 = false →
      (CConfigRegistry.Register reg ev).1 = reg) ∧
    ((CConfigRegistry.Register reg ev).2 = true →
      CConfigRegistry.findVar (CConfigRegistry.Register reg ev).1
        ev.var.name = some ev) ∧
    (∀ evB, evB.var.name ≠ ev.var.name →
      (CConfigRegistry.Register (CConfigRegistry.Register reg ev).1 evB).2 =
        (CConfigRegistry.Register reg evB).2) := by
  unfold CConfigRegistry.Register
  cases hf : CConfigRegistry.findVar reg ev.var.name with
  | some v => simp [hf]
  | none =>
    refine ⟨by simp, by simp, ?_, ?_⟩
    · intro _
      simp only [Option.isSome_none, Bool.false_eq_true, if_false]
      rw [findVar_append, hf]
      simp [CConfigRegistry.findVar]
    · intro evB hne
      simp only [Option.isSome_none, Bool.false_eq_true, if_false]
      rw [findVar_append]
      have : CConfigRegistry.findVar [(ev.var.name, ev)] evB.var.name = none := by
        have hne2 : ¬ev.var.name = evB.var.name := fun h => hne h.symm
        simp [CConfigRegistry.findVar, hne2]
      rw [this]
      cases CConfigRegistry.findVar reg evB.var.name <;> simp

/-- Witness for C4: registering two distinct fresh names succeeds for both,
and the first is retrievable afterwards. -/
theorem register_unique_names_witness :
    (CConfigRegistry.Register [] varString).2 = true ∧
    CConfigRegistry.findVar (CConfigRegistry.Register [] varString).1
      varString.var.name = some varString ∧
    (CConfigRegistry.Register (CConfigRegistry.Register [] varString).1
        varFlag).2 =
      (CConfigRegistry.Register [] varFlag).2 := by
  have h := register_unique_names [] varString
  exact ⟨h.1.mpr rfl, h.2.2.1 (h.1.mpr rfl), h.2.2.2 varFlag (by decide)⟩

/-- C5: `Get<T>` returns the current value iff the name is registered with
static type exactly `T`; an absent name gives `none`, and a registered name
whose static type differs from `T` gives the same `none` (the failed
`dynamic_cast` branch), identically to a missing name. -/
theorem get_typed_lookup (t : CType) (reg : CConfigRegistry) (name : String) :
    (CConfigRegistry.findVar reg name = none →
      CConfigRegistry.Get t reg name = none) ∧
    (∀ ev, CConfigRegistry.findVar reg name = some ev → ev.ty ≠ t →
      CConfigRegistry.Get t reg name = none) ∧
    (∀ ev (h : ev.ty = t), CConfigRegistry.findVar reg name = some ev →
      CConfigRegistry.Get t reg name =
        some (CConfigRegistry.castValue h ev.var.value)) := by
  refine ⟨?_, ?_, ?_⟩
  · intro h
    simp [CConfigRegistry.Get, h]
  · intro ev hf hne
    simp [CConfigRegistry.Get, hf, hne]
  · intro ev h hf
    simp [CConfigRegistry.Get, hf, h]

/-- Witness for C5 on the three-variable registry: matching type yields the
value, mismatched type and missing name both yield `none`. -/
theorem get_typed_lookup_witness :
    CConfigRegistry.Get .cInt regMain "integer" = some (42 : Int) ∧
    CConfigRegistry.Get .cBool regMain "integer" = none ∧
    CConfigRegistry.Get .cInt regMain "missing" = none := by
  exact ⟨(get_typed_lookup CType.cInt regMain "integer").2.2 varInteger42
      rfl rfl,
    (get_typed_lookup CType.cBool regMain "integer").2.1 varInteger42 rfl
      (by decide),
    (get_typed_lookup CType.cInt regMain "missing").1 rfl⟩

/-! ## Substring lemmas for aggregated error messages -/

theorem listHasPre_self_append (x t : List Char) :
    listHasPre x (x ++ t) = true := by
  induction x with
  | nil => rfl
  | cons a as ih => simp [listHasPre, ih]

theorem listHasPre_extend (x h t : List Char)
    (hp : listHasPre x h = true) : listHasPre x (h ++ t) = true := by
  induction x generalizing h with
  | nil => rfl
  | cons a as ih =>
    cases h with
    | nil => simp [listHasPre] at hp
    | cons b bs =>
      simp only [listHasPre, Bool.and_eq_true] at hp
      simp [listHasPre, hp.1, ih bs hp.2]

theorem listHasSub_nil_needle (l : List Char) : listHasSub [] l = true := by
  cases l <;> simp [listHasSub, listHasPre, List.isEmpty]

theorem listHasSub_self_append (x t : List Char) :
    listHasSub x (x ++ t) = true := by
  cases x with
  | nil => exact listHasSub_nil_needle t
  | cons a as =>
    simp only [List.cons_append, listHasSub, Bool.or_eq_true]
    exact Or.inl (listHasPre_self_append (a :: as) t)

theorem listHasSub_cons (x h : List Char) (c : Char)
    (hs : listHasSub x h = true) : listHasSub x (c :: h) = true := by
  simp [listHasSub, hs]

theorem listHasSub_append_left (x h a : List Char)
    (hs : listHasSub x h = true) : listHasSub x (a ++ h) = true := by
  induction a with
  | nil => exact hs
  | cons c cs ih => exact listHasSub_cons x (cs ++ h) c ih

theorem listHasSub_append_right (x h t : List Char)
    (hs : listHasSub x h = true) : listHasSub x (h ++ t) = true := by
  induction h with
  | nil =>
    simp only [listHasSub] at hs
    have : x = [] := by
      cases x with
      | nil => rfl
      | cons a as => simp [List.isEmpty] at hs
    rw [this]
    exact listHasSub_nil_needle t
  | cons b bs ih =>
    simp only [listHasSub, Bool.or_eq_true] at hs ⊢
    rcases hs with hp | hsub
    · exact Or.inl (listHasPre_extend x (b :: bs) t hp)
    · exact Or.inr (ih hsub)

theorem foldl_errors_contains (errs : List String) (acc msg : String)
    (h : msg ∈ errs ∨ listHasSub msg.data acc.data = true) :
    listHasSub msg.data
      ((errs.foldl (fun a e => a ++ " - " ++ e ++ "\n") acc).data) = true := by
  induction errs generalizing acc with
  | nil =>
    rcases h with h | h
    · cases h
    · exact h
  | cons e rest ih =>
    simp only [List.foldl_cons]
    apply ih
    rcases h with h | h
    · rcases List.mem_cons.mp h with rfl | hmem
      · right
        simp only [String.data_append]
        rw [List.append_assoc (acc.data ++ " - ".data)]
        exact listHasSub_append_left _ _ _
          (listHasSub_self_append msg.data "\n".data)
      · exact Or.inl hmem
    · right
      simp only [String.data_append]
      exact listHasSub_append_right _ _ _
        (listHasSub_append_right _ _ _ (listHasSub_append_right _ _ _ h))

theorem mem_aggregateMsg (errs : List String) (msg : String)
    (hm : msg ∈ errs) :
    strContains (CConfigRegistry.aggregateMsg errs) msg = true :=
  foldl_errors_contains errs "Some variables failed to load:\n" msg
    (Or.inl hm)

/-- C3: for every document and registry state, the `LoadFromFile` loop leaves
a registered variable untouched when its dotted name is absent from the
document; stores the checked value when the document entry passes the
variable's validation; and when an entry fails, keeps that variable
untouched while the overall result is the single aggregated error, in which
every failing variable occurs as its "name: message" pair — successful
assignments at other positions being retained regardless. -/
theorem loadFromFile_per_variable (root : Json) (reg : CConfigRegistry)
    (i : Nat) (name : String) (ev : EVar)
    (hi : reg[i]? = some (name, ev)) :
    (GetNestedValue root name = none →
      (CConfigRegistry.LoadDoc root reg).1[i]? = some (name, ev)) ∧
    (∀ j ev2, GetNestedValue root name = some j →
      ev.TrySetJson j = .ok ev2 →
      (CConfigRegistry.LoadDoc root reg).1[i]? = some (name, ev2)) ∧
    (∀ j err, GetNestedValue root name = some j →
      ev.TrySetJson j = .error err →
      (CConfigRegistry.LoadDoc root reg).1[i]? = some (name, ev) ∧
      (CConfigRegistry.LoadDoc root reg).2 =
        .error (CConfigRegistry.aggregateMsg
          ((reg.map (CConfigRegistry.loadEntry root)).filterMap Prod.snd)) ∧
      strContains
        (CConfigRegistry.aggregateMsg
          ((reg.map (CConfigRegistry.loadEntry root)).filterMap Prod.snd))
        (name ++ ": " ++ err) = true) := by
  have hfst : (CConfigRegistry.LoadDoc root reg).1[i]? =
      some (CConfigRegistry.loadEntry root (name, ev)).1 := by
    simp [CConfigRegistry.LoadDoc, List.getElem?_map, hi]
  refine ⟨?_, ?_, ?_⟩
  · intro habs
    rw [hfst]
    simp [CConfigRegistry.loadEntry, habs]
  · intro j ev2 hj hok
    rw [hfst]
    simp [CConfigRegistry.loadEntry, hj, hok]
  · intro j err hj herr
    have hsnd : (CConfigRegistry.loadEntry root (name, ev)).2 =
        some (name ++ ": " ++ err) := by
      simp [CConfigRegistry.loadEntry, hj, herr]
    have hmem : (name ++ ": " ++ err) ∈
        (reg.map (CConfigRegistry.loadEntry root)).filterMap Prod.snd := by
      refine List.mem_filterMap.mpr
        ⟨CConfigRegistry.loadEntry root (name, ev), ?_, hsnd⟩
      exact List.mem_map_of_mem _ (List.getElem?_mem hi)
    refine ⟨?_, ?_, mem_aggregateMsg _ _ hmem⟩
    · rw [hfst]
      simp [CConfigRegistry.loadEntry, hj, herr]
    · have hne2 : (reg.map (CConfigRegistry.loadEntry root)).filterMap
          Prod.snd ≠ [] := List.ne_nil_of_mem hmem
      simp only [CConfigRegistry.LoadDoc]
      rw [if_neg (by simpa [List.isEmpty_iff] using hne2)]

/-- Witness for C3 at the spec's example: three registered variables, the
document updates two and carries an out-of-range value for "integer", which
keeps its prior value while the aggregated error names it. -/
theorem loadFromFile_per_variable_witness :
    (CConfigRegistry.LoadDoc docMixed regMain).1[0]? =
      some ("veryImportantString",
        ⟨CType.cString, { varString.var with value := "hello" }⟩) ∧
    (CConfigRegistry.LoadDoc docMixed regMain).1[1]? =
      some ("integer", varInteger42) ∧
    (CConfigRegistry.LoadDoc docMixed regMain).2 =
      .error (CConfigRegistry.aggregateMsg
        ((regMain.map (CConfigRegistry.loadEntry docMixed)).filterMap
          Prod.snd)) ∧
    strContains
      (CConfigRegistry.aggregateMsg
        ((regMain.map (CConfigRegistry.loadEntry docMixed)).filterMap
          Prod.snd))
      ("integer" ++ ": " ++ "Value should be >=0 and <=500") = true := by
  have h0 := loadFromFile_per_variable docMixed regMain 0
    "veryImportantString" varString rfl
  have h1 := loadFromFile_per_variable docMixed regMain 1
    "integer" varInteger42 rfl
  have h1e := h1.2.2 (Json.jint 999) "Value should be >=0 and <=500" rfl rfl
  exact ⟨h0.2.1 (Json.jstr "hello")
      ⟨CType.cString, { varString.var with value := "hello" }⟩ rfl rfl,
    h1e.1, h1e.2.1, h1e.2.2⟩

/-! ## Nested-path lemmas for the save/load round trip -/

theorem objInsert_isObj (root : Json) (k : String) (v : Json)
    (h : root.isObj = true) : (root.objInsert k v).isObj = true := by
  cases root <;> simp_all [Json.objInsert, Json.isObj]

theorem assocGet_set_self (l : List (String × Json)) (k : String) (v : Json) :
    assocGet (assocSet l k v) k = some v := by
  induction l with
  | nil => simp [assocSet, assocGet]
  | cons kw rest ih =>
    obtain ⟨k2, w⟩ := kw
    by_cases h : k2 = k
    · simp [assocSet, assocGet, h]
    · simp [assocSet, assocGet, h, ih]

theorem assocGet_set_ne (l : List (String × Json)) (k : String) (v : Json)
    (k2 : String) (hne : k2 ≠ k) :
    assocGet (assocSet l k v) k2 = assocGet l k2 := by
  induction l with
  | nil => simp [assocSet, assocGet, Ne.symm hne]
  | cons kw rest ih =>
    obtain ⟨k3, w⟩ := kw
    by_cases h : k3 = k
    · subst h
      simp [assocSet, assocGet, Ne.symm hne]
    · simp [assocSet, assocGet, h, ih]

theorem objGet_insert_self (root : Json) (k : String) (v : Json)
    (h : root.isObj = true) : (root.objInsert k v).objGet k = some v := by
  cases root <;> simp_all [Json.objInsert, Json.objGet, Json.isObj,
    assocGet_set_self]

theorem objGet_insert_ne (root : Json) (k : String) (v : Json) (k2 : String)
    (hne : k2 ≠ k) : (root.objInsert k v).objGet k2 = root.objGet k2 := by
  cases root <;> simp [Json.objInsert, Json.objGet,
    assocGet_set_ne _ k v k2 hne]

theorem setNestedValue_flat (r : Json) (name : String) (v : Json)
    (h : splitPath name = [name]) :
    SetNestedValue r name v = r.objInsert name v := by
  simp [SetNestedValue, h]

theorem objGet_saveFold_frame (l : List (String × EVar)) :
    ∀ (root : Json) (name : String),
    (∀ nv ∈ l, splitPath nv.1 = [nv.1]) →
    (∀ nv ∈ l, nv.1 ≠ name) →
    (l.foldl (fun r nv => SetNestedValue r nv.1 nv.2.ValueAsJson)
      root).objGet name = root.objGet name := by
  induction l with
  | nil => intro root name _ _; rfl
  | cons hd rest ih =>
    intro root name hflat hne
    simp only [List.foldl_cons]
    rw [setNestedValue_flat root hd.1 hd.2.ValueAsJson
      (hflat hd (List.mem_cons_self hd rest))]
    rw [ih _ name (fun b hb => hflat b (List.mem_cons_of_mem hd hb))
      (fun b hb => hne b (List.mem_cons_of_mem hd hb))]
    exact objGet_insert_ne root hd.1 hd.2.ValueAsJson name
      (Ne.symm (hne hd (List.mem_cons_self hd rest)))

theorem objGet_saveDoc_flat (reg : CConfigRegistry) :
    ∀ (root : Json), root.isObj = true →
    (∀ nv ∈ reg, splitPath nv.1 = [nv.1]) →
    List.Pairwise (fun a b : String × EVar => a.1 ≠ b.1) reg →
    ∀ nv ∈ reg,
    (reg.foldl (fun r x => SetNestedValue r x.1 x.2.ValueAsJson)
      root).objGet nv.1 = some nv.2.ValueAsJson := by
  induction reg with
  | nil => intro _ _ _ _ nv h; cases h
  | cons hd rest ih =>
    intro root hroot hflat hpw nv hmem
    rw [List.pairwise_cons] at hpw
    simp only [List.foldl_cons]
    rw [setNestedValue_flat root hd.1 hd.2.ValueAsJson
      (hflat hd (List.mem_cons_self hd rest))]
    rcases List.mem_cons.mp hmem with rfl | hmem2
    · rw [objGet_saveFold_frame rest _ nv.1
        (fun b hb => hflat b (List.mem_cons_of_mem nv hb))
        (fun b hb => Ne.symm (hpw.1 b hb))]
      exact objGet_insert_self root nv.1 nv.2.ValueAsJson hroot
    · exact ih (root.objInsert hd.1 hd.2.ValueAsJson)
        (objInsert_isObj root hd.1 hd.2.ValueAsJson hroot)
        (fun b hb => hflat b (List.mem_cons_of_mem hd hb)) hpw.2 nv hmem2

theorem loadEntry_saveDoc_flat (reg : CConfigRegistry)
    (hflat : ∀ nv ∈ reg, splitPath nv.1 = [nv.1])
    (hpw : List.Pairwise (fun a b : String × EVar => a.1 ≠ b.1) reg)
    (nv : String × EVar) (hmem : nv ∈ reg)
    (hself : nv.2.TrySetJson nv.2.ValueAsJson = .ok nv.2) :
    CConfigRegistry.loadEntry (CConfigRegistry.SaveDoc reg) nv =
      (nv, none) := by
  have hget : GetNestedValue (CConfigRegistry.SaveDoc reg) nv.1 =
      some nv.2.ValueAsJson := by
    unfold GetNestedValue
    rw [hflat nv hmem]
    exact objGet_saveDoc_flat reg (Json.jobj []) rfl hflat hpw nv hmem
  simp [CConfigRegistry.loadEntry, hget, hself]

/-- C6 amended: saving and immediately re-loading succeeds and restores
every variable, provided every registered name is a single dot-free segment,
names are pairwise distinct, and every variable's own saved value is
accepted unchanged by its load validation. The validation condition is
forced by the counterexample below; the dot-free condition is forced because
the source's `SetNestedValue` writes an n-segment dotted name under only its
first n-2 segments while `GetNestedValue` reads back through all n, so for
every dotted name the save and load locations disagree (see
`setNestedValue_flattens_dotted` and `dotted_name_not_round_tripped`). -/
theorem save_then_load_round_trip (reg : CConfigRegistry)
    (hflat : ∀ nv ∈ reg, splitPath nv.1 = [nv.1])
    (hpw : List.Pairwise (fun a b : String × EVar => a.1 ≠ b.1) reg)
    (hself : ∀ nv ∈ reg,
      EVar.TrySetJson nv.2 (EVar.ValueAsJson nv.2) = .ok nv.2) :
    CConfigRegistry.LoadDoc (CConfigRegistry.SaveDoc reg) reg =
      (reg, .ok ()) := by
  have hentry : ∀ nv ∈ reg,
      CConfigRegistry.loadEntry (CConfigRegistry.SaveDoc reg) nv =
        (nv, none) :=
    fun nv h => loadEntry_saveDoc_flat reg hflat hpw nv h (hself nv h)
  have hmap : reg.map
      (CConfigRegistry.loadEntry (CConfigRegistry.SaveDoc reg)) =
      reg.map (fun nv => (nv, none)) :=
    List.map_congr_left hentry
  simp only [CConfigRegistry.LoadDoc, hmap, List.map_map,
    List.filterMap_map]
  have h1 : (Prod.fst ∘ fun nv : String × EVar =>
      (nv, (none : Option String))) = id := rfl
  have h2 : (Prod.snd ∘ fun nv : String × EVar =>
      (nv, (none : Option String))) = fun _ => (none : Option String) := rfl
  rw [h1, h2, List.map_id,
    List.filterMap_eq_nil_iff.mpr
      (fun a _ => (rfl : (fun _ => (none : Option String)) a = none))]
  rfl

/-- Witness for amended C6: the three-variable dot-free registry of
`src/main.cpp` (string, integer, boolean, every current value accepted by
its own check) round-trips exactly. -/
theorem save_then_load_round_trip_witness :
    CConfigRegistry.LoadDoc (CConfigRegistry.SaveDoc regMain) regMain =
      (regMain, .ok ()) := by
  apply save_then_load_round_trip
  · intro nv h
    simp only [regMain, List.mem_cons, List.not_mem_nil, or_false] at h
    rcases h with rfl | rfl | rfl <;> rfl
  · constructor
    · intro b hb
      fin_cases hb <;> decide
    constructor
    · intro b hb
      fin_cases hb
      decide
    constructor
    · intro b hb
      fin_cases hb
    · constructor
  · intro nv h
    simp only [regMain, List.mem_cons, List.not_mem_nil, or_false] at h
    rcases h with rfl | rfl | rfl <;> rfl

/-- The flat-write behaviour of the source's `SetNestedValue`: a two-segment
name is written at its last segment only, a three-segment name drops its
second-to-last level, and a saved dotted name is not found again by
`GetNestedValue`, which descends the full path. -/
theorem setNestedValue_flattens_dotted :
    SetNestedValue (Json.jobj []) "server.port" (Json.jint 8080) =
      Json.jobj [("port", Json.jint 8080)] ∧
    SetNestedValue (Json.jobj []) "a.b.c" (Json.jint 1) =
      Json.jobj [("a", Json.jobj [("c", Json.jint 1)])] ∧
    GetNestedValue
      (SetNestedValue (Json.jobj []) "server.port" (Json.jint 8080))
      "server.port" = none :=
  ⟨rfl, rfl, rfl⟩

/-- Saving the registry holding "port" (value 1) and "server.port"
(value 8080) writes both values at the flat key "port"; the reload then
assigns 8080 to the variable "port" and skips "server.port", so "port" is
not restored even though the names are unrelated dotted paths and every
value passes its own validation. -/
theorem dotted_name_not_round_tripped :
    CConfigRegistry.LoadDoc (CConfigRegistry.SaveDoc regCross) regCross =
      ([("port",
          ⟨CType.cInt, { varPortFlat.var with value := (8080 : Int) }⟩),
        ("server.port", varPort)], .ok ()) := by
  rfl

/-- Counterexample to C6 as stated: for the registry exactly as registered by
`src/main.cpp` restricted to its "integer" variable (current value 512,
range validator 0..500), `SaveToFile` then `LoadFromFile` does not succeed —
it returns the aggregated validation error instead of success, because the
loaded value 512 fails the variable's own range check. -/
theorem save_then_load_not_inverse :
    (CConfigRegistry.LoadDoc (CConfigRegistry.SaveDoc regBad) regBad).2 =
      .error
        "Some variables failed to load:\n - integer: Value should be >=0 and <=500\n" ∧
    (CConfigRegistry.LoadDoc (CConfigRegistry.SaveDoc regBad) regBad).2 ≠
      .ok () := by
  constructor
  · rfl
  · show Except.error
      "Some variables failed to load:\n - integer: Value should be >=0 and <=500\n" ≠ _
    intro h
    cases h
